import Mathlib

/-!
Verification of the trailbase JS isolate-pool runtime
(`crates/js-runtime/src/runtime.rs`) against its natural-language
specification.

The Rust source is shallowly embedded: pure helpers become Lean functions,
the stateful transaction holder becomes explicit state passing over
`Option OwnedTransaction`, and fallible calls return `Except`.  External
collaborators (the SQLite engine, the JS engine) are abstracted as oracle
records whose fields stand for the exact calls the Rust code makes.
-/

namespace Trailbase

/-! ## JSON and SQL values, error types -/

/-- Model of `serde_json::Value` as it crosses the host/guest bridge. -/
inductive JsonValue where
  | null
  | boolean (b : Bool)
  | num (i : Int)
  | str (s : String)
  | arr (xs : List JsonValue)
  | blobObj (bytes : List Nat)

/-- Model of the database value taxonomy (`trailbase_sqlite::Value`):
null, integer, text, blob. -/
inductive SqlValue where
  | null
  | integer (i : Int)
  | text (s : String)
  | blob (bytes : List Nat)
  deriving DecidableEq

/-- Model of `trailbase_schema::json::JsonError` as used by `runtime.rs`
(`ValueNotFound` appears literally; conversion failures are the other arm). -/
inductive JsonError where
  | valueNotFound
  | invalidConversion
  deriving DecidableEq

def JsonError.message : JsonError → String
  | .valueNotFound => "value not found"
  | .invalidConversion => "invalid conversion"

/-- Model of `rusqlite::Error` restricted to the constructors `runtime.rs`
produces or forwards: the conversion-like `ToSqlConversionFailure` arm used
on lock exhaustion, and a catch-all for SQL-level failures. -/
inductive SqliteError where
  | toSqlConversionFailure (msg : String)
  | sqlFailure (msg : String)
  deriving DecidableEq

def SqliteError.message : SqliteError → String
  | .toSqlConversionFailure m => m
  | .sqlFailure m => m

/-- Model of `rustyscript::Error` restricted to the `Runtime` arm, the only
constructor `runtime.rs` builds. -/
inductive RsError where
  | runtime (msg : String)
  deriving DecidableEq

/-- `error_mapper` from `register_database_functions`:
`rustyscript::Error::Runtime(err.to_string())`. -/
def error_mapper (e : SqliteError) : RsError :=
  .runtime e.message

/-- Modelled from the spec: `rich_json_to_value` lives in the schema crate of
this repository, which is not under src/.  Per the spec's value taxonomy,
JSON null maps to the SQL null, an integral JSON number to an integer, a JSON
string to text, and the agreed blob object shape to a blob; any other JSON
value (boolean, array) is an invalid conversion and raises an error. -/
def rich_json_to_value : JsonValue → Except JsonError SqlValue
  | .null => .ok .null
  | .num i => .ok (.integer i)
  | .str s => .ok (.text s)
  | .blobObj bs => .ok (.blob bs)
  | .boolean _ => .error .invalidConversion
  | .arr _ => .error .invalidConversion

/-- Modelled from the spec: `value_to_rich_json` from the schema crate (not
under src/), the inverse direction of the value taxonomy. -/
def value_to_rich_json : SqlValue → Except JsonError JsonValue
  | .null => .ok .null
  | .integer i => .ok (.num i)
  | .text s => .ok (.str s)
  | .blob bs => .ok (.blobObj bs)

/-- `json_values_to_sqlite_params` from `runtime.rs`: convert each parameter,
failing on the first invalid conversion (iterator `collect` semantics). -/
def json_values_to_sqlite_params (values : List JsonValue) :
    Except JsonError (List SqlValue) :=
  values.mapM rich_json_to_value

/-- `row_to_rich_json_array` from `runtime.rs`: walk the columns
`0..row.column_count()`, fetch each value (`ValueNotFound` if absent) and
convert it.  A row is modelled as the list of its column values. -/
def row_to_rich_json_array (row : List SqlValue) :
    Except JsonError (List JsonValue) :=
  (List.range row.length).mapM fun i =>
    match row.get? i with
    | none => Except.error JsonError.valueNotFound
    | some v => value_to_rich_json v

/-! ## Modules, promises, senders, completers -/

/-- A module is an immutable (name, source) pair. -/
structure Module where
  name : String
  source : String
  deriving DecidableEq

/-- Opaque per-worker module handle. -/
abbrev ModuleHandle := Nat

/-- Snapshot model of a `rustyscript::js_value::Promise<T>`:
whether `is_pending(runtime)` currently holds, and the `Result` that
`into_future(runtime)` yields once the promise has settled. -/
structure Promise (T : Type) where
  pending : Bool
  value : Except RsError T

/-- Snapshot model of a `tokio::sync::oneshot::Sender<Result<T, Error>>`:
an identity plus whether the receiving side has been dropped. -/
structure Sender (T : Type) where
  id : Nat
  closed : Bool

/-- `CompleterImpl` from `runtime.rs`: a parked JS promise paired with the
response sender it must eventually feed. -/
structure CompleterImpl (T : Type) where
  promise : Promise T
  sender : Sender T

/-- `CompleterImpl::is_ready`: true when the sender has been closed by the
caller, otherwise true exactly when the promise is no longer pending. -/
def CompleterImpl.is_ready (c : CompleterImpl T) : Bool :=
  if c.sender.closed then true else !c.promise.pending

/-- Observable effect of running the future returned by
`CompleterImpl::resolve`. -/
inductive ResolveEffect (T : Type) where
  | noop
  | sent (target : Nat) (v : Except RsError T)

/-- `CompleterImpl::resolve`: if the sender is closed, the returned future
does nothing (no value extracted, no user code run); otherwise it extracts
the promise's settled value and forwards the `Result` on the sender. -/
def CompleterImpl.resolve (c : CompleterImpl T) : ResolveEffect T :=
  if c.sender.closed then .noop else .sent c.sender.id c.promise.value

/-! ## Call builders and message dispatch -/

/-- The engine surface the message continuations use: the two
instantiations of `Runtime::call_function_immediate` that appear in
`runtime.rs` (plain value for sync calls, `Promise<T>` for async calls). -/
structure EngineOracle (T : Type) where
  callImmediate : Option ModuleHandle → String → List JsonValue → Except RsError T
  callImmediatePromise :
    Option ModuleHandle → String → List JsonValue → Except RsError (Promise T)

/-- What a continuation did when invoked: the value (if any) it sent on a
response sender, and the completer (if any) it handed back to the event
loop. -/
structure ContOutcome (T : Type) where
  sent : Option (Nat × Except RsError T)
  completer : Option (CompleterImpl T)

/-- `Message::Run(module?, continuation)`: an optional module plus a one-shot
continuation receiving the optional module handle and the engine. -/
structure MessageModel (T : Type) where
  module : Option Module
  run : EngineOracle T → Option ModuleHandle → ContOutcome T

/-- `build_call_sync_js_function_message`: the continuation calls
`call_function_immediate::<T>` and sends the result directly on the response
sender; it never returns a completer. -/
def build_call_sync_js_function_message (module : Option Module)
    (function_name : String) (args : List JsonValue) (response : Sender T) :
    MessageModel T :=
  { module := module
    run := fun eng handle =>
      { sent := some (response.id, eng.callImmediate handle function_name args)
        completer := none } }

/-- `build_call_async_js_function_message`: the continuation calls
`call_function_immediate::<Promise<T>>`; on success it returns a completer
pairing the promise with the response sender (without awaiting the promise),
on synchronous failure it sends the error immediately and returns no
completer. -/
def build_call_async_js_function_message (module : Option Module)
    (function_name : String) (args : List JsonValue) (response : Sender T) :
    MessageModel T :=
  { module := module
    run := fun eng handle =>
      match eng.callImmediatePromise handle function_name args with
      | .ok promise =>
        { sent := none
          completer := some { promise := promise, sender := response } }
      | .error e =>
        { sent := some (response.id, .error e)
          completer := none } }

/-- `MODULE_LOAD_TIMEOUT` from `event_loop`: 1000 ms. -/
def MODULE_LOAD_TIMEOUT_MS : Nat := 1000

/-- Outcome of `tokio::time::timeout(MODULE_LOAD_TIMEOUT, load_module_async)`. -/
inductive LoadOutcome where
  | loaded (h : ModuleHandle)
  | loadError
  | timedOut
  deriving DecidableEq

/-- Worker-side log lines emitted by the dispatch arm of `event_loop`. -/
inductive LogEvent where
  | moduleLoadFailed
  | moduleLoadTimedOut
  deriving DecidableEq

/-- Result of dispatching one message in `event_loop`: either the message was
abandoned (continuation never invoked; the boxed continuation owning the
response sender is dropped, so the caller observes a closed channel), or the
continuation ran and produced an outcome. -/
inductive DispatchResult (T : Type) where
  | abandoned
  | ran (out : ContOutcome T)

/-- The message-dispatch arm of `event_loop`: load the module (if any) under
the timeout; on load error or timeout log and abandon; otherwise invoke the
continuation with the handle (or with none when no module is attached). -/
def dispatch_message (load : Module → LoadOutcome) (eng : EngineOracle T)
    (msg : MessageModel T) : DispatchResult T × List LogEvent :=
  match msg.module with
  | some m =>
    match load m with
    | .loaded h => (.ran (msg.run eng (some h)), [])
    | .loadError => (.abandoned, [.moduleLoadFailed])
    | .timedOut => (.abandoned, [.moduleLoadTimedOut])
  | none => (.ran (msg.run eng none), [])

/-! ## The database bridge: transaction primitives -/

/-- The token held in the worker-local slot.  In the Rust code this is the
self-referential `OwnedTransaction` owning the connection's write-lock guard;
dropping it releases the lock and implicitly rolls back. -/
inductive OwnedTransaction where
  | mk
  deriving DecidableEq

/-- The SQLite surface the bridge calls through the held transaction, plus
lock acquisition.  Each field stands for one call the Rust code makes:
`try_write_lock_for` (indexed by global attempt number), `dep.transaction()`,
`Transaction::prepare`, `Params::bind`, `raw_query` (composed with
`Rows::from_rows`), `raw_execute`, and `execute_batch`. -/
structure DbOracle where
  tryLock : Nat → Bool
  beginTx : Except SqliteError Unit
  prepare : String → Except SqliteError Unit
  bindParams : String → List SqlValue → Except SqliteError Unit
  rawQuery : String → List SqlValue → Except SqliteError (List (List SqlValue))
  rawExecute : String → List SqlValue → Except SqliteError Nat
  execBatch : String → Except SqliteError Unit

/-- Observable database interactions performed by a bridge call. -/
inductive DbEffect where
  | ranQuery (sql : String) (params : List SqlValue)
  | ranExecute (sql : String) (params : List SqlValue)
  | ranBatch (sql : String)
  deriving DecidableEq

/-- Outcome of one registered bridge function: a Rust panic (from a failed
`assert!`), or an ordinary return of `Result<serde_json::Value, Error>`. -/
inductive Outcome where
  | panicked
  | returned (r : Except RsError JsonValue)

/-- Result of one bridge call: its outcome, the transaction holder afterward,
and the database interactions it performed. -/
structure CallResult where
  outcome : Outcome
  holder : Option OwnedTransaction
  effects : List DbEffect

/-- Events of the lock-acquisition loop in `new_transaction`:
`try_write_lock_for(Duration::from_micros(50))` attempts and
`sleep(Duration::from_micros(400))` backoffs. -/
inductive AcqEvent where
  | tryLockFor (micros : Nat)
  | sleptMicros (micros : Nat)
  deriving DecidableEq

/-- The literal `0..200` bound of the retry loop in `new_transaction`. -/
def LOCK_RETRY_COUNT : Nat := 200

/-- The literal 50 µs lock timeout in `new_transaction`. -/
def LOCK_TIMEOUT_MICROS : Nat := 50

/-- The literal 400 µs backoff sleep in `new_transaction`. -/
def RETRY_SLEEP_MICROS : Nat := 400

/-- The two events of one failed acquisition attempt. -/
def failAcqEvents : List AcqEvent :=
  [.tryLockFor LOCK_TIMEOUT_MICROS, .sleptMicros RETRY_SLEEP_MICROS]

/-- The retry loop of `new_transaction`: `k` is the global attempt index,
the second argument the remaining attempts.  A successful lock attempt
starts the write transaction (`dep.transaction()`); exhaustion returns the
`ToSqlConversionFailure("Failed to acquire lock")` error.  The event list
records the attempts and sleeps performed. -/
def new_transaction_loop (O : DbOracle) :
    Nat → Nat → Except SqliteError OwnedTransaction × List AcqEvent
  | _, 0 => (.error (.toSqlConversionFailure "Failed to acquire lock"), [])
  | k, n + 1 =>
    if O.tryLock k then
      (O.beginTx.map fun _ => OwnedTransaction.mk,
        [.tryLockFor LOCK_TIMEOUT_MICROS])
    else
      let r := new_transaction_loop O (k + 1) n
      (r.1, .tryLockFor LOCK_TIMEOUT_MICROS :: .sleptMicros RETRY_SLEEP_MICROS :: r.2)

/-- `new_transaction` from `runtime.rs`: at most `LOCK_RETRY_COUNT` attempts
starting at attempt 0. -/
def new_transaction (O : DbOracle) :
    Except SqliteError OwnedTransaction × List AcqEvent :=
  new_transaction_loop O 0 LOCK_RETRY_COUNT

/-- Number of lock attempts recorded in an event list. -/
def lockAttempts (evs : List AcqEvent) : Nat :=
  (evs.filter fun e => match e with | .tryLockFor _ => true | _ => false).length

/-- The `transaction_begin` bridge function (modulo argument unpacking):
`assert!(holder.is_none())` panics when a transaction is already held;
otherwise run `new_transaction`, store the transaction in the holder on
success and resolve with null, or report the mapped error with the holder
left empty. -/
def transaction_begin (O : DbOracle) (holder : Option OwnedTransaction) :
    CallResult :=
  match holder with
  | some tx => ⟨.panicked, some tx, []⟩
  | none =>
    match (new_transaction O).1 with
    | .ok tx => ⟨.returned (.ok .null), some tx, []⟩
    | .error e => ⟨.returned (.error (error_mapper e)), none, []⟩

/-- The `transaction_query` bridge function (modulo argument unpacking):
convert the parameters, then — only if a transaction is held — prepare the
statement on it, bind the parameters, run the query and materialize the rows
as a JSON array of arrays.  With no held transaction it returns null and
touches nothing. -/
def transaction_query (O : DbOracle) (sql : String) (params : List JsonValue)
    (holder : Option OwnedTransaction) : CallResult :=
  match json_values_to_sqlite_params params with
  | .error e => ⟨.returned (.error (.runtime e.message)), holder, []⟩
  | .ok ps =>
    match holder with
    | none => ⟨.returned (.ok .null), none, []⟩
    | some tx =>
      match O.prepare sql with
      | .error e => ⟨.returned (.error (error_mapper e)), some tx, []⟩
      | .ok _ =>
        match O.bindParams sql ps with
        | .error e => ⟨.returned (.error (error_mapper e)), some tx, []⟩
        | .ok _ =>
          match O.rawQuery sql ps with
          | .error e =>
            ⟨.returned (.error (error_mapper e)), some tx, [.ranQuery sql ps]⟩
          | .ok rows =>
            match rows.mapM row_to_rich_json_array with
            | .error e =>
              ⟨.returned (.error (.runtime e.message)), some tx,
                [.ranQuery sql ps]⟩
            | .ok vss =>
              ⟨.returned (.ok (.arr (vss.map JsonValue.arr))), some tx,
                [.ranQuery sql ps]⟩

/-- The `transaction_execute` bridge function (modulo argument unpacking):
like `transaction_query` but running `raw_execute` and returning the
affected row count as a JSON number. -/
def transaction_execute (O : DbOracle) (sql : String) (params : List JsonValue)
    (holder : Option OwnedTransaction) : CallResult :=
  match json_values_to_sqlite_params params with
  | .error e => ⟨.returned (.error (.runtime e.message)), holder, []⟩
  | .ok ps =>
    match holder with
    | none => ⟨.returned (.ok .null), none, []⟩
    | some tx =>
      match O.prepare sql with
      | .error e => ⟨.returned (.error (error_mapper e)), some tx, []⟩
      | .ok _ =>
        match O.bindParams sql ps with
        | .error e => ⟨.returned (.error (error_mapper e)), some tx, []⟩
        | .ok _ =>
          match O.rawExecute sql ps with
          | .error e =>
            ⟨.returned (.error (error_mapper e)), some tx, [.ranExecute sql ps]⟩
          | .ok n =>
            ⟨.returned (.ok (.num n)), some tx, [.ranExecute sql ps]⟩

/-- The `transaction_commit` bridge function: `take()` the holder first (so
it is empty from here on), and if a transaction was held run
`execute_batch("COMMIT")` on it, propagating any failure. -/
def transaction_commit (O : DbOracle) (holder : Option OwnedTransaction) :
    CallResult :=
  match holder with
  | some _tx =>
    match O.execBatch "COMMIT" with
    | .ok _ => ⟨.returned (.ok .null), none, [.ranBatch "COMMIT"]⟩
    | .error e => ⟨.returned (.error (error_mapper e)), none, [.ranBatch "COMMIT"]⟩
  | none => ⟨.returned (.ok .null), none, []⟩

/-- The `transaction_rollback` bridge function: `take()` the holder first,
and if a transaction was held run `execute_batch("ROLLBACK")` on it. -/
def transaction_rollback (O : DbOracle) (holder : Option OwnedTransaction) :
    CallResult :=
  match holder with
  | some _tx =>
    match O.execBatch "ROLLBACK" with
    | .ok _ => ⟨.returned (.ok .null), none, [.ranBatch "ROLLBACK"]⟩
    | .error e => ⟨.returned (.error (error_mapper e)), none, [.ranBatch "ROLLBACK"]⟩
  | none => ⟨.returned (.ok .null), none, []⟩

/-! ## Top-level guest invocations using the transaction API -/

/-- One synchronous transaction primitive a guest callback may issue. -/
inductive TxOp where
  | query (sql : String) (params : List JsonValue)
  | execute (sql : String) (params : List JsonValue)
  | commit
  | rollback

/-- Effect of one guest-issued primitive on the transaction holder. -/
def TxOp.step (O : DbOracle) (holder : Option OwnedTransaction) :
    TxOp → Option OwnedTransaction
  | .query sql ps => (transaction_query O sql ps holder).holder
  | .execute sql ps => (transaction_execute O sql ps holder).holder
  | .commit => (transaction_commit O holder).holder
  | .rollback => (transaction_rollback O holder).holder

/-- Modelled from the spec: the guest-facing library (the `trailbase:main`
JS bundle, which is not under src/) wraps the primitives in a helper
`transaction(callback)` that calls `transaction_begin`, invokes the
callback, and guarantees cleanup by clearing the holder at the end of the
top-level invocation (a rollback that is a no-op when the holder is already
empty) — whether the callback returned or threw.  `ops` is the list of
primitives the callback issued before returning or throwing. -/
def transaction_helper_run (O : DbOracle) (ops : List TxOp)
    (holder₀ : Option OwnedTransaction) : Option OwnedTransaction :=
  let afterBegin := (transaction_begin O holder₀).holder
  let afterCallback := ops.foldl (TxOp.step O) afterBegin
  (transaction_rollback O afterCallback).holder

/-- The write lock is owned by the held transaction: it is held by this
worker exactly while the holder is occupied, and released when the
transaction is dropped. -/
def writeLockHeld (holder : Option OwnedTransaction) : Bool :=
  holder.isSome

/-! ## drain_filter -/

/-- `Vec::swap_remove(i)`: return the element at `i` and replace it by the
last element, shortening the vector by one.  Out-of-range indices (which
panic in Rust and never occur in `drain_filter`) leave the list unchanged. -/
def swap_remove (v : List α) (i : Nat) : Option α × List α :=
  match v.get? i, v.get? (v.length - 1) with
  | some x, some last => (some x, (v.set i last).dropLast)
  | _, _ => (none, v)

/-- The index collection of `drain_filter`:
`v.iter().enumerate().filter_map(|(idx, value)| f(value).then(idx))`,
unrolled with the running index made explicit. -/
def matched_indexes_go (f : α → Bool) : Nat → List α → List Nat
  | _, [] => []
  | n, x :: xs =>
    if f x then n :: matched_indexes_go f (n + 1) xs
    else matched_indexes_go f (n + 1) xs

/-- The removal loop of `drain_filter`:
`indexes.into_iter().rev().map(|index| v.swap_remove(index)).collect()`,
threading the mutated vector.  Returns (drained, remaining). -/
def drain_loop : List Nat → List α → List α × List α
  | [], v => ([], v)
  | i :: rest, v =>
    match swap_remove v i with
    | (some x, v2) =>
      let p := drain_loop rest v2
      (x :: p.1, p.2)
    | (none, v2) => drain_loop rest v2

/-- `drain_filter` from `runtime.rs`: collect the indices whose elements
satisfy `f`, then `swap_remove` them in reverse order.  Returns the drained
elements and the remaining vector. -/
def drain_filter (v : List α) (f : α → Bool) : List α × List α :=
  drain_loop ((matched_indexes_go f 0 v).reverse) v

/-! ## Concrete oracles used to instantiate theorems -/

/-- A database oracle whose every operation succeeds with trivial results. -/
def okOracle : DbOracle where
  tryLock := fun _ => true
  beginTx := .ok ()
  prepare := fun _ => .ok ()
  bindParams := fun _ _ => .ok ()
  rawQuery := fun _ _ => .ok []
  rawExecute := fun _ _ => .ok 0
  execBatch := fun _ => .ok ()

/-- An oracle on which every lock attempt times out. -/
def neverLockOracle : DbOracle :=
  { okOracle with tryLock := fun _ => false }

/-- An oracle on which COMMIT/ROLLBACK statements fail. -/
def batchFailOracle : DbOracle :=
  { okOracle with execBatch := fun _ => .error (.sqlFailure "batch failed") }

/-- An oracle returning one single-column row and affected count 2. -/
def rowOracle : DbOracle :=
  { okOracle with
    rawQuery := fun _ _ => .ok [[.integer 5]]
    rawExecute := fun _ _ => .ok 2 }

/-! ## Theorems -/

/-- Claim C6: a completer is ready exactly when its promise has settled or
its response channel has been closed by the caller; resolving with a closed
sender is a no-op (no value extracted, no user code run), and otherwise
resolving extracts the promise's settled value and forwards the `Result` to
the sender. -/
theorem completer_ready_and_resolve {T : Type} (c : CompleterImpl T) :
    (c.is_ready = true ↔ (c.promise.pending = false ∨ c.sender.closed = true))
    ∧ (c.sender.closed = true → c.resolve = .noop)
    ∧ (c.sender.closed = false →
        c.resolve = .sent c.sender.id c.promise.value) := by
  refine ⟨?_, ?_, ?_⟩
  · unfold CompleterImpl.is_ready
    cases h : c.sender.closed <;> cases hp : c.promise.pending <;> simp [h, hp]
  · intro h; simp [CompleterImpl.resolve, h]
  · intro h; simp [CompleterImpl.resolve, h]

/-- Witness for C6 at two concrete completers, one cancelled and one live. -/
theorem completer_ready_and_resolve_witness :
    (CompleterImpl.resolve
        { promise := { pending := false, value := .ok (0 : Int) }
          sender := { id := 1, closed := true } } = .noop)
    ∧ (CompleterImpl.resolve
        { promise := { pending := false, value := .ok (7 : Int) }
          sender := { id := 2, closed := false } } = .sent 2 (.ok 7)) :=
  ⟨(completer_ready_and_resolve _).2.1 rfl,
   (completer_ready_and_resolve _).2.2 rfl⟩

/-- Claim C7: the synchronous call builder's continuation invokes the
engine's immediate call and sends the result directly on the response
sender, returning no completer; the asynchronous builder's continuation
invokes the promise-typed immediate call and on success parks the unawaited
promise with the response sender as a completer while sending nothing, and
on synchronous failure sends the error immediately and returns no
completer. -/
theorem call_builder_continuations {T : Type} (module : Option Module)
    (fn : String) (args : List JsonValue) (response : Sender T)
    (eng : EngineOracle T) (handle : Option ModuleHandle) :
    ((build_call_sync_js_function_message module fn args response).run eng handle
        = { sent := some (response.id, eng.callImmediate handle fn args)
            completer := none })
    ∧ (∀ p, eng.callImmediatePromise handle fn args = .ok p →
        (build_call_async_js_function_message module fn args response).run eng handle
          = { sent := none
              completer := some { promise := p, sender := response } })
    ∧ (∀ e, eng.callImmediatePromise handle fn args = .error e →
        (build_call_async_js_function_message module fn args response).run eng handle
          = { sent := some (response.id, .error e), completer := none }) := by
  refine ⟨rfl, ?_, ?_⟩
  · intro p hp
    simp [build_call_async_js_function_message, hp]
  · intro e he
    simp [build_call_async_js_function_message, he]

/-- Witness for C7: a concrete async builder run against an engine whose
immediate call yields a promise, and against one that fails synchronously. -/
theorem call_builder_continuations_witness :
    ((build_call_async_js_function_message none "f" []
        ({ id := 0, closed := false } : Sender Int)).run
      { callImmediate := fun _ _ _ => .ok 0
        callImmediatePromise := fun _ _ _ => .ok { pending := true, value := .ok 4 } }
      none
      = { sent := none
          completer := some { promise := { pending := true, value := .ok 4 }
                              sender := { id := 0, closed := false } } })
    ∧ ((build_call_async_js_function_message none "f" []
        ({ id := 0, closed := false } : Sender Int)).run
      { callImmediate := fun _ _ _ => .ok 0
        callImmediatePromise := fun _ _ _ => .error (.runtime "sync failure") }
      none
      = { sent := some (0, .error (.runtime "sync failure")), completer := none }) :=
  ⟨(call_builder_continuations none "f" [] _ _ none).2.1 _ rfl,
   (call_builder_continuations none "f" [] _ _ none).2.2 _ rfl⟩

/-- Claim C8: a message carrying a module has the module loaded under the
1 s timeout; on load error or timeout the worker logs and abandons the
message — the continuation is never invoked and the response channel is
dropped (the `abandoned` outcome) — while on success the continuation runs
with the handle, and a module-less message runs with no handle. -/
theorem dispatch_module_load {T : Type} (load : Module → LoadOutcome)
    (eng : EngineOracle T) (msg : MessageModel T) :
    MODULE_LOAD_TIMEOUT_MS = 1000
    ∧ (∀ m, msg.module = some m → load m = .loadError →
        dispatch_message load eng msg = (.abandoned, [.moduleLoadFailed]))
    ∧ (∀ m, msg.module = some m → load m = .timedOut →
        dispatch_message load eng msg = (.abandoned, [.moduleLoadTimedOut]))
    ∧ (∀ m h, msg.module = some m → load m = .loaded h →
        dispatch_message load eng msg = (.ran (msg.run eng (some h)), []))
    ∧ (msg.module = none →
        dispatch_message load eng msg = (.ran (msg.run eng none), [])) := by
  refine ⟨rfl, ?_, ?_, ?_, ?_⟩ <;> intros <;> simp [dispatch_message, *]

/-- Witness for C8 on a concrete message and the three load outcomes. -/
theorem dispatch_module_load_witness :
    (dispatch_message (T := Int) (fun _ => .loadError)
        { callImmediate := fun _ _ _ => .ok 0
          callImmediatePromise := fun _ _ _ => .error (.runtime "e") }
        { module := some { name := "m", source := "s" }
          run := fun _ _ => { sent := none, completer := none } }
      = (.abandoned, [.moduleLoadFailed]))
    ∧ (dispatch_message (T := Int) (fun _ => .timedOut)
        { callImmediate := fun _ _ _ => .ok 0
          callImmediatePromise := fun _ _ _ => .error (.runtime "e") }
        { module := some { name := "m", source := "s" }
          run := fun _ _ => { sent := none, completer := none } }
      = (.abandoned, [.moduleLoadTimedOut]))
    ∧ (dispatch_message (T := Int) (fun _ => .loaded 9)
        { callImmediate := fun _ _ _ => .ok 0
          callImmediatePromise := fun _ _ _ => .error (.runtime "e") }
        { module := some { name := "m", source := "s" }
          run := fun _ _ => { sent := none, completer := none } }
      = (.ran { sent := none, completer := none }, []))
    ∧ (dispatch_message (T := Int) (fun _ => .loadError)
        { callImmediate := fun _ _ _ => .ok 0
          callImmediatePromise := fun _ _ _ => .error (.runtime "e") }
        { module := none
          run := fun _ _ => { sent := none, completer := none } }
      = (.ran { sent := none, completer := none }, [])) :=
  ⟨(dispatch_module_load _ _ _).2.1 _ rfl rfl,
   (dispatch_module_load _ _ _).2.2.1 _ rfl rfl,
   (dispatch_module_load _ _ _).2.2.2.1 _ _ rfl rfl,
   (dispatch_module_load _ _ _).2.2.2.2 rfl⟩

/-- Claim C3: `transaction_begin` checks the empty-holder precondition with
an assertion; invoked while a transaction is held it panics — the single
protocol-violation behavior, held uniformly for every oracle and held
transaction — and under the precondition the call always returns instead of
panicking, so the violation branch is unreachable. -/
theorem transaction_begin_precondition (O : DbOracle) (tx : OwnedTransaction) :
    (transaction_begin O (some tx)).outcome = .panicked
    ∧ ∃ r, (transaction_begin O none).outcome = .returned r := by
  refine ⟨rfl, ?_⟩
  unfold transaction_begin
  cases h : (new_transaction O).1 <;> simp

/-- Counterexample to claim C4 as stated: with a transaction held and a
COMMIT statement that fails, `transaction_commit` does not return null to
the guest. -/
theorem transaction_commit_not_always_null :
    (transaction_commit batchFailOracle (some .mk)).outcome
      ≠ .returned (.ok .null) := by
  intro h
  have h2 : Outcome.returned (.error (.runtime "batch failed"))
      = Outcome.returned (.ok .null) := h
  injection h2 with h3
  exact Except.noConfusion h3

/-- Claim C4 (amended): `transaction_commit` and `transaction_rollback`
return null except when the COMMIT/ROLLBACK statement itself fails, in which
case the mapped error is returned; whenever a transaction is held the
statement is executed on it and the holder cleared, and with no held
transaction both are no-ops that return null, leave the holder empty and
execute no SQL. -/
theorem transaction_commit_rollback_spec (O : DbOracle)
    (tx : OwnedTransaction) :
    (transaction_commit O none = ⟨.returned (.ok .null), none, []⟩)
    ∧ (transaction_rollback O none = ⟨.returned (.ok .null), none, []⟩)
    ∧ ((transaction_commit O (some tx)).holder = none)
    ∧ ((transaction_commit O (some tx)).effects = [.ranBatch "COMMIT"])
    ∧ (O.execBatch "COMMIT" = .ok () →
        (transaction_commit O (some tx)).outcome = .returned (.ok .null))
    ∧ (∀ e, O.execBatch "COMMIT" = .error e →
        (transaction_commit O (some tx)).outcome
          = .returned (.error (error_mapper e)))
    ∧ ((transaction_rollback O (some tx)).holder = none)
    ∧ ((transaction_rollback O (some tx)).effects = [.ranBatch "ROLLBACK"])
    ∧ (O.execBatch "ROLLBACK" = .ok () →
        (transaction_rollback O (some tx)).outcome = .returned (.ok .null))
    ∧ (∀ e, O.execBatch "ROLLBACK" = .error e →
        (transaction_rollback O (some tx)).outcome
          = .returned (.error (error_mapper e))) := by
  refine ⟨rfl, rfl, ?_, ?_, ?_, ?_, ?_, ?_, ?_, ?_⟩
  · cases h : O.execBatch "COMMIT" <;> simp [transaction_commit, h]
  · cases h : O.execBatch "COMMIT" <;> simp [transaction_commit, h]
  · intro h; simp [transaction_commit, h]
  · intro e h; simp [transaction_commit, h]
  · cases h : O.execBatch "ROLLBACK" <;> simp [transaction_rollback, h]
  · cases h : O.execBatch "ROLLBACK" <;> simp [transaction_rollback, h]
  · intro h; simp [transaction_rollback, h]
  · intro e h; simp [transaction_rollback, h]

/-- Witness for the amended C4: a succeeding and a failing COMMIT at
concrete oracles. -/
theorem transaction_commit_rollback_spec_witness :
    ((transaction_commit okOracle (some .mk)).outcome = .returned (.ok .null))
    ∧ ((transaction_commit batchFailOracle (some .mk)).outcome
        = .returned (.error (.runtime "batch failed")))
    ∧ ((transaction_rollback okOracle (some .mk)).outcome
        = .returned (.ok .null)) :=
  ⟨(transaction_commit_rollback_spec okOracle .mk).2.2.2.2.1 rfl,
   (transaction_commit_rollback_spec batchFailOracle .mk).2.2.2.2.2.1 _ rfl,
   (transaction_commit_rollback_spec okOracle .mk).2.2.2.2.2.2.2.2.1 rfl⟩

/-- Counterexample to claim C5 as stated: with the holder empty but a
parameter that fails rich-JSON conversion (a JSON boolean, which the value
taxonomy rejects), `transaction_query` returns a runtime error rather than
null. -/
theorem transaction_query_param_error_on_empty :
    (transaction_query okOracle "SELECT 1" [.boolean true] none).outcome
      ≠ .returned (.ok .null) := by
  intro h
  have h2 : Outcome.returned (.error (.runtime "invalid conversion"))
      = Outcome.returned (.ok .null) := h
  injection h2 with h3
  exact Except.noConfusion h3

/-- Claim C5 (amended): while the holder is empty,
`transaction_query`/`transaction_execute` return null and perform no
database interaction, provided the parameters convert under the rich-JSON
rules — if a parameter fails conversion the call returns that runtime error
instead (for any holder state, leaving the holder unchanged and still
touching the database in no way); with a transaction held,
`transaction_query` prepares the statement on it, binds the parameters,
runs it and returns the materialized rows as an array of arrays, and
`transaction_execute` returns the affected row count as a number. -/
theorem transaction_query_execute_spec (O : DbOracle) (sql : String)
    (params : List JsonValue) (tx : OwnedTransaction) :
    (∀ ps, json_values_to_sqlite_params params = .ok ps →
        transaction_query O sql params none = ⟨.returned (.ok .null), none, []⟩
        ∧ transaction_execute O sql params none
            = ⟨.returned (.ok .null), none, []⟩)
    ∧ (∀ e holder, json_values_to_sqlite_params params = .error e →
        transaction_query O sql params holder
          = ⟨.returned (.error (.runtime e.message)), holder, []⟩
        ∧ transaction_execute O sql params holder
            = ⟨.returned (.error (.runtime e.message)), holder, []⟩)
    ∧ (∀ ps rows vss, json_values_to_sqlite_params params = .ok ps →
        O.prepare sql = .ok () → O.bindParams sql ps = .ok () →
        O.rawQuery sql ps = .ok rows →
        rows.mapM row_to_rich_json_array = .ok vss →
        transaction_query O sql params (some tx)
          = ⟨.returned (.ok (.arr (vss.map JsonValue.arr))), some tx,
              [.ranQuery sql ps]⟩)
    ∧ (∀ ps n, json_values_to_sqlite_params params = .ok ps →
        O.prepare sql = .ok () → O.bindParams sql ps = .ok () →
        O.rawExecute sql ps = .ok n →
        transaction_execute O sql params (some tx)
          = ⟨.returned (.ok (.num n)), some tx, [.ranExecute sql ps]⟩) := by
  refine ⟨?_, ?_, ?_, ?_⟩
  · intro ps hps
    exact ⟨by simp [transaction_query, hps], by simp [transaction_execute, hps]⟩
  · intro e holder he
    exact ⟨by simp [transaction_query, he], by simp [transaction_execute, he]⟩
  · intro ps rows vss hps hprep hbind hrun hconv
    simp only [transaction_query, hps, hprep, hbind, hrun, hconv]
  · intro ps n hps hprep hbind hrun
    simp only [transaction_execute, hps, hprep, hbind, hrun]

/-- Witness for the amended C5 at concrete inputs: empty-holder null, a
conversion error on an empty and on a held holder, a held query
materializing one row, and a held execute returning the affected count. -/
theorem transaction_query_execute_spec_witness :
    (transaction_query rowOracle "SELECT v" [.num 3] none
        = ⟨.returned (.ok .null), none, []⟩)
    ∧ (transaction_execute rowOracle "q" [.boolean true] none
        = ⟨.returned (.error (.runtime "invalid conversion")), none, []⟩)
    ∧ (transaction_query rowOracle "q" [.boolean true] (some .mk)
        = ⟨.returned (.error (.runtime "invalid conversion")), some .mk, []⟩)
    ∧ (transaction_query rowOracle "SELECT v" [.num 3] (some .mk)
        = ⟨.returned (.ok (.arr [.arr [.num 5]])), some .mk,
            [.ranQuery "SELECT v" [.integer 3]]⟩)
    ∧ (transaction_execute rowOracle "DELETE FROM t" [.num 3] (some .mk)
        = ⟨.returned (.ok (.num 2)), some .mk,
            [.ranExecute "DELETE FROM t" [.integer 3]]⟩) :=
  ⟨((transaction_query_execute_spec rowOracle "SELECT v" [.num 3] .mk).1
      _ rfl).1,
   ((transaction_query_execute_spec rowOracle "q" [.boolean true] .mk).2.1
      _ none rfl).2,
   ((transaction_query_execute_spec rowOracle "q" [.boolean true] .mk).2.1
      _ (some .mk) rfl).1,
   (transaction_query_execute_spec rowOracle "SELECT v" [.num 3] .mk).2.2.1
      [.integer 3] [[.integer 5]] [[.num 5]] rfl rfl rfl rfl rfl,
   (transaction_query_execute_spec rowOracle "DELETE FROM t" [.num 3] .mk).2.2.2
      [.integer 3] 2 rfl rfl rfl rfl⟩

/-- Claim C10: when COMMIT or ROLLBACK fails on a held transaction, the call
reports the error to the guest, but the transaction was taken out of the
holder before the statement ran: the holder is left empty, the write lock is
no longer held by the worker, and a subsequent `transaction_begin` passes
its empty-holder precondition (it returns rather than panicking). -/
theorem commit_rollback_failure_clears_holder (O O2 : DbOracle)
    (tx tx2 : OwnedTransaction) :
    (∀ e, O.execBatch "COMMIT" = .error e →
      transaction_commit O (some tx)
        = ⟨.returned (.error (error_mapper e)), none, [.ranBatch "COMMIT"]⟩
      ∧ writeLockHeld (transaction_commit O (some tx)).holder = false
      ∧ ∃ r, (transaction_begin O2
            (transaction_commit O (some tx)).holder).outcome = .returned r)
    ∧ (∀ e, O.execBatch "ROLLBACK" = .error e →
      transaction_rollback O (some tx2)
        = ⟨.returned (.error (error_mapper e)), none, [.ranBatch "ROLLBACK"]⟩
      ∧ writeLockHeld (transaction_rollback O (some tx2)).holder = false
      ∧ ∃ r, (transaction_begin O2
            (transaction_rollback O (some tx2)).holder).outcome = .returned r) := by
  constructor
  · intro e he
    refine ⟨by simp [transaction_commit, he], by simp [transaction_commit, he, writeLockHeld], ?_⟩
    have hh : (transaction_commit O (some tx)).holder = none := by
      simp [transaction_commit, he]
    rw [hh]
    unfold transaction_begin
    cases h2 : (new_transaction O2).1 <;> simp
  · intro e he
    refine ⟨by simp [transaction_rollback, he], by simp [transaction_rollback, he, writeLockHeld], ?_⟩
    have hh : (transaction_rollback O (some tx2)).holder = none := by
      simp [transaction_rollback, he]
    rw [hh]
    unfold transaction_begin
    cases h2 : (new_transaction O2).1 <;> simp

/-- Witness for C10 at a concrete oracle whose batch statements fail. -/
theorem commit_rollback_failure_clears_holder_witness :
    (transaction_commit batchFailOracle (some .mk)
      = ⟨.returned (.error (.runtime "batch failed")), none, [.ranBatch "COMMIT"]⟩)
    ∧ (transaction_rollback batchFailOracle (some .mk)
      = ⟨.returned (.error (.runtime "batch failed")), none, [.ranBatch "ROLLBACK"]⟩) :=
  ⟨((commit_rollback_failure_clears_holder batchFailOracle okOracle .mk .mk).1
      _ rfl).1,
   ((commit_rollback_failure_clears_holder batchFailOracle okOracle .mk .mk).2
      _ rfl).1⟩

/-- A rollback leaves the holder empty from any starting state. -/
theorem rollback_holder_none (O : DbOracle) (h : Option OwnedTransaction) :
    (transaction_rollback O h).holder = none := by
  cases h with
  | none => rfl
  | some tx => cases hb : O.execBatch "ROLLBACK" <;> simp [transaction_rollback, hb]

/-- Claim C1: every top-level guest invocation that called
`transaction_begin` leaves the worker's holder empty once it settles —
whatever primitives the callback issued and whether it committed, rolled
back, returned early or threw — so the held transaction has been removed
and dropped and the write lock is released. -/
theorem holder_empty_after_top_level_call (O : DbOracle) (ops : List TxOp) :
    transaction_helper_run O ops none = none
    ∧ writeLockHeld (transaction_helper_run O ops none) = false := by
  have h : transaction_helper_run O ops none = none := by
    unfold transaction_helper_run
    exact rollback_holder_none O _
  exact ⟨h, by rw [h]; rfl⟩

/-- Every event of the acquisition loop is a 50 µs lock attempt or a 400 µs
sleep. -/
theorem new_transaction_loop_events (O : DbOracle) :
    ∀ n k, ∀ e ∈ (new_transaction_loop O k n).2,
      e = .tryLockFor LOCK_TIMEOUT_MICROS
      ∨ e = .sleptMicros RETRY_SLEEP_MICROS := by
  intro n
  induction n with
  | zero => intro k e he; simp [new_transaction_loop] at he
  | succ m ih =>
    intro k e he
    by_cases hk : O.tryLock k
    · simp [new_transaction_loop, hk] at he
      exact Or.inl he
    · simp only [new_transaction_loop, hk, if_neg, Bool.false_eq_true,
        ite_false, List.mem_cons] at he
      rcases he with rfl | rfl | he
      · exact Or.inl rfl
      · exact Or.inr rfl
      · exact ih (k + 1) e he

/-- The acquisition loop makes at most as many lock attempts as its fuel. -/
theorem new_transaction_loop_attempts_le (O : DbOracle) :
    ∀ n k, lockAttempts (new_transaction_loop O k n).2 ≤ n := by
  intro n
  induction n with
  | zero => intro k; simp [new_transaction_loop, lockAttempts]
  | succ m ih =>
    intro k
    by_cases hk : O.tryLock k
    · simp [new_transaction_loop, hk, lockAttempts]
    · have := ih (k + 1)
      simp only [new_transaction_loop, hk, Bool.false_eq_true, ite_false,
        lockAttempts, List.filter_cons] at this ⊢
      simpa [Nat.succ_le_succ_iff] using this

/-- Lock-attempt count of `n` repetitions of a failed attempt. -/
theorem lockAttempts_join_replicate (n : Nat) :
    lockAttempts (List.replicate n failAcqEvents).flatten = n := by
  induction n with
  | zero => rfl
  | succ m ih =>
    simp only [lockAttempts] at ih
    simp only [List.replicate_succ, List.flatten_cons, lockAttempts,
      List.filter_append, List.length_append]
    rw [ih]
    simp [failAcqEvents]
    omega

/-- If every attempt within the fuel fails, the loop returns the
conversion-like lock-exhaustion error after the full pattern of timed
attempts and sleeps. -/
theorem new_transaction_loop_all_fail (O : DbOracle) :
    ∀ n k, (∀ j, j < n → O.tryLock (k + j) = false) →
      new_transaction_loop O k n
        = (.error (.toSqlConversionFailure "Failed to acquire lock"),
            (List.replicate n failAcqEvents).flatten) := by
  intro n
  induction n with
  | zero => intro k _; rfl
  | succ m ih =>
    intro k h
    have h0 : O.tryLock k = false := by simpa using h 0 (Nat.succ_pos m)
    have hrest : ∀ j, j < m → O.tryLock (k + 1 + j) = false := by
      intro j hj
      have heq : k + 1 + j = k + (j + 1) := by omega
      rw [heq]
      exact h (j + 1) (by omega)
    simp [new_transaction_loop, h0, ih (k + 1) hrest, List.replicate_succ,
      failAcqEvents]

/-- If the first successful attempt is attempt `i` (counting from the loop's
starting index), the loop performs `i` failed attempts with sleeps, then the
successful 50 µs attempt, and returns the started transaction. -/
theorem new_transaction_loop_first_success (O : DbOracle) :
    ∀ i n k, i < n → (∀ j, j < i → O.tryLock (k + j) = false) →
      O.tryLock (k + i) = true →
      new_transaction_loop O k n
        = (O.beginTx.map fun _ => OwnedTransaction.mk,
            (List.replicate i failAcqEvents).flatten
              ++ [.tryLockFor LOCK_TIMEOUT_MICROS]) := by
  intro i
  induction i with
  | zero =>
    intro n k hn _ hk
    obtain ⟨m, rfl⟩ : ∃ m, n = m + 1 := ⟨n - 1, by omega⟩
    rw [Nat.add_zero] at hk
    simp [new_transaction_loop, hk]
  | succ i ih =>
    intro n k hn hfail hk
    obtain ⟨m, rfl⟩ : ∃ m, n = m + 1 := ⟨n - 1, by omega⟩
    have h0 : O.tryLock k = false := by simpa using hfail 0 (Nat.succ_pos i)
    have hfail2 : ∀ j, j < i → O.tryLock (k + 1 + j) = false := by
      intro j hj
      have heq : k + 1 + j = k + (j + 1) := by omega
      rw [heq]
      exact hfail (j + 1) (by omega)
    have hk2 : O.tryLock (k + 1 + i) = true := by
      have heq : k + 1 + i = k + (i + 1) := by omega
      rw [heq]
      exact hk
    simp [new_transaction_loop, h0, ih m (k + 1) (by omega) hfail2 hk2,
      List.replicate_succ, failAcqEvents]

/-- Claim C2: `transaction_begin` acquires the write lock by bounded retry —
at most 200 attempts, each a 50 µs timed try followed by a 400 µs sleep when
it fails; if some attempt succeeds the write transaction is started, stored
in the holder and null is resolved; if all 200 fail, the conversion-like
`ToSqlConversionFailure` "Failed to acquire lock" error is returned to the
guest and the holder stays empty. -/
theorem transaction_begin_lock_retry (O : DbOracle)
    (hb : O.beginTx = .ok ()) :
    (∀ e ∈ (new_transaction O).2,
        e = .tryLockFor LOCK_TIMEOUT_MICROS
        ∨ e = .sleptMicros RETRY_SLEEP_MICROS)
    ∧ lockAttempts (new_transaction O).2 ≤ LOCK_RETRY_COUNT
    ∧ ((∃ k, k < LOCK_RETRY_COUNT ∧ O.tryLock k = true) →
        transaction_begin O none = ⟨.returned (.ok .null), some .mk, []⟩)
    ∧ (∀ k, k < LOCK_RETRY_COUNT → (∀ j, j < k → O.tryLock j = false) →
        O.tryLock k = true →
        (new_transaction O).2
          = (List.replicate k failAcqEvents).flatten
              ++ [.tryLockFor LOCK_TIMEOUT_MICROS])
    ∧ ((∀ k, k < LOCK_RETRY_COUNT → O.tryLock k = false) →
        transaction_begin O none
          = ⟨.returned (.error (.runtime "Failed to acquire lock")), none, []⟩
        ∧ (new_transaction O).1
            = .error (.toSqlConversionFailure "Failed to acquire lock")
        ∧ lockAttempts (new_transaction O).2 = LOCK_RETRY_COUNT) := by
  refine ⟨new_transaction_loop_events O LOCK_RETRY_COUNT 0,
    new_transaction_loop_attempts_le O LOCK_RETRY_COUNT 0, ?_, ?_, ?_⟩
  · rintro ⟨k, hk, hlock⟩
    have hex : ∃ j, O.tryLock j = true := ⟨k, hlock⟩
    have hfind : O.tryLock (Nat.find hex) = true := Nat.find_spec hex
    have hmin : ∀ j, j < Nat.find hex → O.tryLock j = false := by
      intro j hj
      have := Nat.find_min hex hj
      exact Bool.not_eq_true _ ▸ Bool.of_not_eq_true this
    have hlt : Nat.find hex < LOCK_RETRY_COUNT :=
      Nat.lt_of_le_of_lt (Nat.find_min' hex hlock) hk
    have hloop := new_transaction_loop_first_success O (Nat.find hex)
      LOCK_RETRY_COUNT 0 hlt (by simpa using hmin) (by simpa using hfind)
    have h1 : (new_transaction O).1 = .ok .mk := by
      rw [new_transaction, hloop, hb]
      rfl
    simp [transaction_begin, h1]
  · intro k hk hprev hlock
    have hloop := new_transaction_loop_first_success O k LOCK_RETRY_COUNT 0
      hk (by simpa using hprev) (by simpa using hlock)
    rw [new_transaction, hloop]
  · intro hall
    have hloop := new_transaction_loop_all_fail O LOCK_RETRY_COUNT 0
      (by simpa using hall)
    have h1 : (new_transaction O).1
        = .error (.toSqlConversionFailure "Failed to acquire lock") := by
      rw [new_transaction, hloop]
    refine ⟨by simp [transaction_begin, h1, error_mapper, SqliteError.message],
      h1, ?_⟩
    rw [new_transaction, hloop]
    exact lockAttempts_join_replicate LOCK_RETRY_COUNT

/-- Witness for C2: an oracle that locks immediately and one that never
locks within the bound. -/
theorem transaction_begin_lock_retry_witness :
    (transaction_begin okOracle none = ⟨.returned (.ok .null), some .mk, []⟩)
    ∧ (transaction_begin neverLockOracle none
        = ⟨.returned (.error (.runtime "Failed to acquire lock")), none, []⟩) :=
  ⟨(transaction_begin_lock_retry okOracle rfl).2.2.1 ⟨0, by decide, rfl⟩,
   ((transaction_begin_lock_retry neverLockOracle rfl).2.2.2.2
      fun _ _ => rfl).1⟩

/-- `swap_remove` at a valid index, in explicit form. -/
theorem swap_remove_eq (v : List α) (i : Nat) (x lst : α)
    (hx : v.get? i = some x) (hlst : v.get? (v.length - 1) = some lst) :
    swap_remove v i = (some x, (v.set i lst).dropLast) := by
  have hx2 : v[i]? = some x := (List.get?_eq_getElem? v i).symm.trans hx
  have hl2 : v[v.length - 1]? = some lst :=
    (List.get?_eq_getElem? _ _).symm.trans hlst
  simp [swap_remove, hx2, hl2]

/-- Entries strictly below the removed index are untouched by
`swap_remove`. -/
theorem set_dropLast_get?_lt (v : List α) (i j : Nat) (lst : α)
    (h : i < v.length) (hj : j < i) :
    ((v.set i lst).dropLast).get? j = v.get? j := by
  simp only [List.dropLast_eq_take, List.get?_eq_getElem?, List.getElem?_take,
    List.length_set]
  rw [if_pos (by omega)]
  exact List.getElem?_set_ne (by omega)

/-- Removing index `i` by `swap_remove` preserves the multiset of elements
once the removed element is added back. -/
theorem swap_remove_perm (v : List α) (i : Nat) (x lst : α)
    (hx : v.get? i = some x) (hlst : v.get? (v.length - 1) = some lst) :
    (↑(x :: (v.set i lst).dropLast) : Multiset α) = (↑v : Multiset α) := by
  obtain ⟨h, hxv⟩ :=
    List.getElem?_eq_some_iff.mp ((List.get?_eq_getElem? v i).symm.trans hx)
  obtain ⟨l₁, l₂, hv, hlen1, hset⟩ := @List.exists_of_set _ i lst v h
  rw [hxv] at hv
  rw [hset]
  have hlenv := congrArg List.length hv
  simp only [List.length_append, List.length_cons] at hlenv
  rcases List.eq_nil_or_concat l₂ with rfl | ⟨l₃, z, rfl⟩
  · simp only [List.length_nil] at hlenv
    have hieq : v.length - 1 = i := by omega
    have hlx : lst = x := by
      rw [hieq] at hlst
      exact Option.some.inj (hlst.symm.trans hx)
    subst hlx
    rw [List.dropLast_concat]
    conv_rhs => rw [hv]
    rw [Multiset.coe_eq_coe]
    simpa using
      (@List.perm_middle _ lst l₁ []).symm
  · simp only [List.concat_eq_append] at hv hset hlenv ⊢
    simp only [List.length_append, List.length_cons, List.length_nil] at hlenv
    have hlen3 : v.length - 1 = (l₁ ++ x :: l₃).length := by
      simp only [List.length_append, List.length_cons]
      omega
    have hassoc : l₁ ++ x :: (l₃ ++ [z]) = (l₁ ++ x :: l₃) ++ [z] := by simp
    have hvz : v.get? (v.length - 1) = some z := by
      rw [List.get?_eq_getElem?, hlen3, hv, hassoc]
      exact List.getElem?_concat_length _ _
    have hlz : lst = z := Option.some.inj (hlst.symm.trans hvz)
    subst hlz
    have hassoc2 : l₁ ++ lst :: (l₃ ++ [lst]) = (l₁ ++ lst :: l₃) ++ [lst] := by
      simp
    rw [hassoc2, List.dropLast_concat]
    conv_rhs => rw [hv]
    rw [Multiset.coe_eq_coe]
    refine List.perm_middle.symm.trans ?_
    refine List.Perm.append_left l₁ (List.Perm.cons x ?_)
    simpa using
      (@List.perm_middle _ lst l₃ []).symm

/-- The removal loop of `drain_filter` applied to strictly decreasing
in-bounds indices: the drained elements are exactly the originals at those
indices and the elements are conserved as a multiset. -/
theorem drain_loop_spec (idxs : List Nat) : ∀ (v : List α),
    (∀ i ∈ idxs, i < v.length) →
    List.Pairwise (fun a b => a > b) idxs →
    idxs.map (fun i => v.get? i) = (drain_loop idxs v).1.map some
    ∧ (↑((drain_loop idxs v).1 ++ (drain_loop idxs v).2) : Multiset α)
        = (↑v : Multiset α) := by
  induction idxs with
  | nil => intro v _ _; exact ⟨rfl, rfl⟩
  | cons i rest ih =>
    intro v hbound hpair
    have hi : i < v.length := hbound i (by simp)
    have hx : v.get? i = some v[i] := by
      rw [List.get?_eq_getElem?]
      exact List.getElem?_eq_getElem hi
    have hlst : v.get? (v.length - 1) = some v[v.length - 1] := by
      rw [List.get?_eq_getElem?]
      exact List.getElem?_eq_getElem (by omega)
    have hsr : swap_remove v i
        = (some v[i], (v.set i v[v.length - 1]).dropLast) :=
      swap_remove_eq v i _ _ hx hlst
    have hgt : ∀ b ∈ rest, b < i := (List.pairwise_cons.mp hpair).1
    have hpair2 := (List.pairwise_cons.mp hpair).2
    have hbound2 : ∀ j ∈ rest, j < ((v.set i v[v.length - 1]).dropLast).length := by
      intro j hj
      have h1 := hgt j hj
      simp only [List.length_dropLast, List.length_set]
      omega
    obtain ⟨ihmap, ihms⟩ := ih ((v.set i v[v.length - 1]).dropLast) hbound2 hpair2
    constructor
    · simp only [drain_loop, hsr, List.map_cons]
      refine congrArg₂ List.cons hx ?_
      have hcongr : rest.map (fun j => v.get? j)
          = rest.map (fun j => ((v.set i v[v.length - 1]).dropLast).get? j) := by
        apply List.map_congr_left
        intro j hj
        exact (set_dropLast_get?_lt v i j _ hi (hgt j hj)).symm
      rw [hcongr, ihmap]
    · simp only [drain_loop, hsr]
      calc (↑((v[i] :: (drain_loop rest ((v.set i v[v.length - 1]).dropLast)).1)
              ++ (drain_loop rest ((v.set i v[v.length - 1]).dropLast)).2) : Multiset α)
          = ↑(v[i] :: ((drain_loop rest ((v.set i v[v.length - 1]).dropLast)).1
              ++ (drain_loop rest ((v.set i v[v.length - 1]).dropLast)).2)) := by
            rw [List.cons_append]
        _ = v[i] ::ₘ ↑((drain_loop rest ((v.set i v[v.length - 1]).dropLast)).1
              ++ (drain_loop rest ((v.set i v[v.length - 1]).dropLast)).2) :=
            (Multiset.cons_coe _ _).symm
        _ = v[i] ::ₘ ↑((v.set i v[v.length - 1]).dropLast) := by rw [ihms]
        _ = ↑(v[i] :: (v.set i v[v.length - 1]).dropLast) := Multiset.cons_coe _ _
        _ = ↑v := swap_remove_perm v i _ _ hx hlst

/-- Bounds, ordering and element characterization of the collected indices
of `drain_filter`. -/
theorem matched_indexes_go_spec (f : α → Bool) :
    ∀ (xs : List α) (n : Nat),
      (∀ i ∈ matched_indexes_go f n xs, n ≤ i ∧ i < n + xs.length)
      ∧ List.Pairwise (fun a b => a < b) (matched_indexes_go f n xs)
      ∧ (matched_indexes_go f n xs).map (fun i => xs.get? (i - n))
          = (xs.filter f).map some := by
  intro xs
  induction xs with
  | nil =>
    intro n
    refine ⟨?_, ?_, ?_⟩ <;> simp [matched_indexes_go]
  | cons x t ih =>
    intro n
    obtain ⟨ihb, ihp, ihm⟩ := ih (n + 1)
    have hcongr : (matched_indexes_go f (n + 1) t).map
          (fun i => (x :: t).get? (i - n))
        = (matched_indexes_go f (n + 1) t).map (fun i => t.get? (i - (n + 1))) := by
      apply List.map_congr_left
      intro i hi
      have hb := ihb i hi
      have hsub : i - n = (i - (n + 1)) + 1 := by omega
      rw [hsub, List.get?_cons_succ]
    cases hf : f x with
    | true =>
      refine ⟨?_, ?_, ?_⟩
      · intro i hi
        simp only [matched_indexes_go, hf, if_true, List.mem_cons] at hi
        rcases hi with rfl | hi
        · simp
        · have := ihb i hi
          exact ⟨by omega, by simp only [List.length_cons]; omega⟩
      · simp only [matched_indexes_go, hf, if_true]
        exact List.pairwise_cons.mpr
          ⟨fun j hj => by have := ihb j hj; omega, ihp⟩
      · simp only [matched_indexes_go, hf, if_true, List.map_cons,
          List.filter_cons_of_pos hf, Nat.sub_self, List.get?_cons_zero]
        exact congrArg (List.cons (some x)) (hcongr.trans ihm)
    | false =>
      have hf2 : ¬(f x = true) := by simp [hf]
      refine ⟨?_, ?_, ?_⟩
      · intro i hi
        simp only [matched_indexes_go, hf, if_false] at hi
        have := ihb i hi
        exact ⟨by omega, by simp only [List.length_cons]; omega⟩
      · simpa only [matched_indexes_go, hf, if_false] using ihp
      · simp only [matched_indexes_go, hf, if_false,
          List.filter_cons_of_neg hf2]
        exact hcongr.trans ihm

/-- Claim C9: for every vector `v` and predicate `f`, `drain_filter`
removes and returns exactly the elements on which `f` holds, and afterwards
the vector holds exactly the elements on which `f` does not hold — equality
as multisets; the order of the remaining entries may change. -/
theorem drain_filter_partitions {α : Type} (v : List α) (f : α → Bool) :
    ((drain_filter v f).1 : Multiset α) = ↑(v.filter f)
    ∧ ((drain_filter v f).2 : Multiset α) = ↑(v.filter fun x => !f x) := by
  obtain ⟨hb, hp, hm⟩ := matched_indexes_go_spec f v 0
  have hb2 : ∀ i ∈ (matched_indexes_go f 0 v).reverse, i < v.length := by
    intro i hi
    have := hb i (List.mem_reverse.mp hi)
    omega
  have hp2 : List.Pairwise (fun a b => a > b)
      (matched_indexes_go f 0 v).reverse :=
    List.pairwise_reverse.mpr hp
  obtain ⟨hmap, hms⟩ :=
    drain_loop_spec (matched_indexes_go f 0 v).reverse v hb2 hp2
  have hm0 : (matched_indexes_go f 0 v).map (fun i => v.get? i)
      = (v.filter f).map some := by
    have : (matched_indexes_go f 0 v).map (fun i => v.get? i)
        = (matched_indexes_go f 0 v).map (fun i => v.get? (i - 0)) := by
      simp
    rw [this, hm]
  have hrev : (matched_indexes_go f 0 v).reverse.map (fun i => v.get? i)
      = (((v.filter f).reverse).map some) := by
    rw [List.map_reverse, hm0, ← List.map_reverse]
  have hdrained : (drain_filter v f).1 = (v.filter f).reverse := by
    apply List.map_injective_iff.mpr (Option.some_injective α)
    have h1 : (drain_filter v f).1.map some
        = (matched_indexes_go f 0 v).reverse.map (fun i => v.get? i) := by
      rw [hmap]
      rfl
    rw [h1, hrev]
  have hfirst : ((drain_filter v f).1 : Multiset α) = ↑(v.filter f) := by
    rw [hdrained, Multiset.coe_reverse]
  refine ⟨hfirst, ?_⟩
  have hms2 : ((drain_filter v f).1 : Multiset α) + ↑(drain_filter v f).2
      = ↑v := by
    rw [Multiset.coe_add]
    exact hms
  have hsplit : (↑(v.filter f) : Multiset α) + ↑(v.filter fun x => !f x)
      = ↑v := by
    rw [Multiset.coe_add, Multiset.coe_eq_coe]
    exact List.filter_append_perm f v
  have := hms2.trans hsplit.symm
  rw [hfirst] at this
  exact add_left_cancel this

end Trailbase
